import Mathlib

/-!
Shallow embedding of the indicator calculators of the crypto-trading-desk
MCP servers (`crypto_technical_analysis.py`, `crypto_advanced_indicators.py`,
`crypto_futures_data.py`, `crypto_market_microstructure.py`).

Python floats are modelled as `ℚ`.  Where a float special value (NaN or inf)
decides observable behaviour (the RSI 0/0 window, division checks), that is
modelled explicitly with `Option` following IEEE semantics.  Python's
`round(x, 2)` (round half to even) is modelled by `pyRound2`.
-/

/-- Round-half-to-even of a rational to an integer, as Python's `round`. -/
def roundHalfEven (x : ℚ) : ℤ :=
  let n := ⌊x⌋
  if x - n < 1/2 then n
  else if (1 : ℚ)/2 < x - n then n + 1
  else if Even n then n else n + 1

/-- Python's `round(q, 2)`. -/
def pyRound2 (q : ℚ) : ℚ := (roundHalfEven (q * 100) : ℚ) / 100

/-! ### calculate_pivot_points (crypto_advanced_indicators.py)

The local variables `pivot`, `r1`..`r3`, `s1`..`s3` computed from the
previous bar's high/low/close. -/

def pivot (high low close : ℚ) : ℚ := (high + low + close) / 3

def r1 (high low close : ℚ) : ℚ := 2 * pivot high low close - low

def r2 (high low close : ℚ) : ℚ := pivot high low close + (high - low)

def r3 (high low close : ℚ) : ℚ := high + 2 * (pivot high low close - low)

def s1 (high low close : ℚ) : ℚ := 2 * pivot high low close - high

def s2 (high low close : ℚ) : ℚ := pivot high low close - (high - low)

def s3 (high low close : ℚ) : ℚ := low - 2 * (high - pivot high low close)

/-! ### get_funding_rate (crypto_futures_data.py) -/

def FUNDING_NEUTRAL_THRESHOLD : ℚ := 5

def FUNDING_EXTREME_THRESHOLD : ℚ := 50

/-- The bias classification block of `get_funding_rate`. -/
def market_bias (annual_rate : ℚ) : String :=
  if |annual_rate| < FUNDING_NEUTRAL_THRESHOLD then "NEUTRAL"
  else if annual_rate > FUNDING_NEUTRAL_THRESHOLD then "BULLISH_EXTREME"
  else "BEARISH_EXTREME"

/-- `annual_rate = rate * 3 * 365 * 100` (3 funding events per day). -/
def annual_rate (rate : ℚ) : ℚ := rate * 3 * 365 * 100

/-- The `annual_rate_percentage` field of the result: `round(annual_rate, 2)`. -/
def annual_rate_percentage (rate : ℚ) : ℚ := pyRound2 (annual_rate rate)

/-! ### calculate_liquidation_levels (crypto_futures_data.py) -/

def long_liq (price : ℚ) (lev : ℕ) : ℚ := price * (1 - 1 / (lev : ℚ) - 5/1000)

def short_liq (price : ℚ) (lev : ℕ) : ℚ := price * (1 + 1 / (lev : ℚ) + 5/1000)

def leverages : List ℕ := [5, 10, 20, 50, 100]

/-- The `liquidation_levels` table: per leverage, rounded long/short levels. -/
def calculate_liquidation_levels (price : ℚ) : List (ℕ × ℚ × ℚ) :=
  leverages.map (fun lev => (lev, pyRound2 (long_liq price lev), pyRound2 (short_liq price lev)))

/-! ## Claim C2 -/

/-- Claim C2 (counterexample): at High = 110, Low = 90, Close = 90 (a
single-bar input with High ≥ Low) the claimed identity R1 + S1 = 2·Pivot
fails: R1 + S1 = 560/3 while 2·Pivot = 580/3. -/
theorem C2_counterexample :
    (90 : ℚ) ≤ 110 ∧ r1 110 90 90 + s1 110 90 90 ≠ 2 * pivot 110 90 90 := by
  constructor
  · norm_num
  · norm_num [r1, s1, pivot]

/-- Claim C2 (amended): for every single-bar High/Low/Close with High ≥ Low,
R1 + S1 = 4·Pivot − (High + Low), which equals 2·Pivot exactly when
High + Low = 2·Close; R2 − S2 = 2·(High − Low) always holds; and on the
literal input High = 110, Low = 90, Close = 100 the calculator yields
Pivot = 100, R1 = 110, S1 = 90, R2 = 120, S2 = 80, R3 = 130, S3 = 70. -/
theorem C2_amended (high low close : ℚ) (hhl : low ≤ high) :
    r1 high low close + s1 high low close = 4 * pivot high low close - (high + low) ∧
    (r1 high low close + s1 high low close = 2 * pivot high low close ↔
      high + low = 2 * close) ∧
    r2 high low close - s2 high low close = 2 * (high - low) ∧
    pivot 110 90 100 = 100 ∧ r1 110 90 100 = 110 ∧ s1 110 90 100 = 90 ∧
    r2 110 90 100 = 120 ∧ s2 110 90 100 = 80 ∧ r3 110 90 100 = 130 ∧
    s3 110 90 100 = 70 := by
  refine ⟨by simp only [r1, s1, pivot]; ring, ?_, by simp only [r2, s2, pivot]; ring,
    by norm_num [pivot], by norm_num [r1, pivot], by norm_num [s1, pivot],
    by norm_num [r2, pivot], by norm_num [s2, pivot], by norm_num [r3, pivot],
    by norm_num [s3, pivot]⟩
  simp only [r1, s1, pivot]
  constructor <;> intro h <;> linarith

/-- Claim C2 witness: the amended theorem applied at the literal example. -/
theorem C2_witness :
    r2 110 90 100 - s2 110 90 100 = 2 * ((110 : ℚ) - 90) :=
  (C2_amended 110 90 100 (by norm_num)).2.2.1

/-! ## Claim C4 -/

/-- Claim C4: the funding-rate bias classifier returns NEUTRAL exactly when
the absolute annualized rate is below the neutral threshold 5, returns
BULLISH_EXTREME for every annualized rate above 5 (also strictly below the
extreme threshold 50, which is never consulted), and returns BEARISH_EXTREME
in all remaining cases. -/
theorem C4_funding_bias (a : ℚ) :
    (market_bias a = "NEUTRAL" ↔ |a| < FUNDING_NEUTRAL_THRESHOLD) ∧
    (FUNDING_NEUTRAL_THRESHOLD < a → market_bias a = "BULLISH_EXTREME") ∧
    (FUNDING_NEUTRAL_THRESHOLD < a → a < FUNDING_EXTREME_THRESHOLD →
      market_bias a = "BULLISH_EXTREME") ∧
    (¬ |a| < FUNDING_NEUTRAL_THRESHOLD → ¬ FUNDING_NEUTRAL_THRESHOLD < a →
      market_bias a = "BEARISH_EXTREME") := by
  unfold market_bias
  split_ifs with h1 h2
  · refine ⟨iff_of_true rfl h1, fun h => ?_, fun h _ => ?_, fun hn _ => (hn h1).elim⟩
    · have := le_abs_self a
      simp only [FUNDING_NEUTRAL_THRESHOLD] at h1 h ⊢
      exact absurd h1 (by push_neg; linarith)
    · have := le_abs_self a
      simp only [FUNDING_NEUTRAL_THRESHOLD] at h1 h ⊢
      exact absurd h1 (by push_neg; linarith)
  · exact ⟨iff_of_false (by decide) h1, fun _ => rfl, fun _ _ => rfl,
      fun _ hn2 => (hn2 h2).elim⟩
  · exact ⟨iff_of_false (by decide) h1, fun h => (h2 h).elim, fun h _ => (h2 h).elim,
      fun _ _ => rfl⟩

/-- Claim C4 witness: an annualized rate of 10 (above the neutral band, below
the extreme threshold 50) classifies as BULLISH_EXTREME. -/
theorem C4_witness : market_bias 10 = "BULLISH_EXTREME" :=
  (C4_funding_bias 10).2.2.1 (by norm_num [FUNDING_NEUTRAL_THRESHOLD])
    (by norm_num [FUNDING_EXTREME_THRESHOLD])

/-! ## Claim C7 -/

/-- Claim C7: for every price and every leverage in the fixed ladder
{5, 10, 20, 50, 100}, the table entry is the rounded
price·(1 − 1/leverage − 0.005) long level and price·(1 + 1/leverage + 0.005)
short level; at 10x leverage on price 50000 the long level is 44750 and the
short level 55250. -/
theorem C7_liquidation_levels (price : ℚ) :
    (∀ lev ∈ leverages,
      List.lookup lev (calculate_liquidation_levels price) =
        some (pyRound2 (price * (1 - 1 / (lev : ℚ) - 5/1000)),
              pyRound2 (price * (1 + 1 / (lev : ℚ) + 5/1000)))) ∧
    List.lookup 10 (calculate_liquidation_levels 50000) = some (44750, 55250) := by
  constructor
  · intro lev hlev
    fin_cases hlev <;> rfl
  · show some (pyRound2 (long_liq 50000 10), pyRound2 (short_liq 50000 10)) = _
    norm_num [long_liq, short_liq, pyRound2, roundHalfEven]

/-- Claim C7 witness: the formula part applied at price 50000, leverage 5. -/
theorem C7_witness :
    List.lookup 5 (calculate_liquidation_levels 50000) =
      some (pyRound2 (50000 * (1 - 1 / ((5 : ℕ) : ℚ) - 5/1000)),
            pyRound2 (50000 * (1 + 1 / ((5 : ℕ) : ℚ) + 5/1000))) :=
  (C7_liquidation_levels 50000).1 5 (by decide)

/-! ## Claim C8 -/

/-- Claim C8: the funding-rate annualization is exactly
rate · 3 · 365 · 100, and the reported 2-decimal-rounded
`annual_rate_percentage` at rate 0.0001 is exactly 10.95. -/
theorem C8_funding_annualization :
    (∀ rate : ℚ, annual_rate rate = rate * 3 * 365 * 100) ∧
    annual_rate_percentage (1/10000) = 1095/100 := by
  refine ⟨fun rate => rfl, ?_⟩
  norm_num [annual_rate_percentage, annual_rate, pyRound2, roundHalfEven]

/-! ### detect_spoofing_patterns (crypto_market_microstructure.py) -/

def SPOOFING_VOLUME_MULTIPLIER : ℚ := 5

def SPOOFING_DISTANCE_PCT : ℚ := 1/2

def SPOOFING_COUNT_THRESHOLD : ℕ := 3

/-- Bid levels whose size exceeds the large-order threshold and whose price
sits more than `SPOOFING_DISTANCE_PCT` percent below the mid price. -/
def suspicious_bids_count (bids : List (ℚ × ℚ)) (threshold mid_price : ℚ) : ℕ :=
  List.countP
    (fun b => decide (b.2 > threshold ∧
      (mid_price - b.1) / mid_price * 100 > SPOOFING_DISTANCE_PCT)) bids

/-- Ask levels whose size exceeds the large-order threshold and whose price
sits more than `SPOOFING_DISTANCE_PCT` percent above the mid price. -/
def suspicious_asks_count (asks : List (ℚ × ℚ)) (threshold mid_price : ℚ) : ℕ :=
  List.countP
    (fun a => decide (a.2 > threshold ∧
      (a.1 - mid_price) / mid_price * 100 > SPOOFING_DISTANCE_PCT)) asks

/-- The additive spoofing score over the two suspicious-level counts. -/
def spoofing_score (nSuspiciousBids nSuspiciousAsks : ℕ) : ℕ :=
  (if nSuspiciousBids > SPOOFING_COUNT_THRESHOLD then 25 else 0) +
  (if nSuspiciousAsks > SPOOFING_COUNT_THRESHOLD then 25 else 0) +
  (if nSuspiciousBids > nSuspiciousAsks * 2 then 25
   else if nSuspiciousAsks > nSuspiciousBids * 2 then 25 else 0)

def risk_level (score : ℕ) : String :=
  if score > 50 then "HIGH" else if score > 25 then "MODERATE" else "LOW"

/-- The score/risk pair produced by `detect_spoofing_patterns`. -/
def detect_spoofing_patterns (bids asks : List (ℚ × ℚ))
    (large_order_threshold_btc : ℚ) : ℕ × String :=
  let best_bid := (bids.headD (0, 0)).1
  let best_ask := (asks.headD (0, 0)).1
  let mid_price := (best_bid + best_ask) / 2
  let avg_bid_volume := (bids.map Prod.snd).sum / (bids.length : ℚ)
  let avg_ask_volume := (asks.map Prod.snd).sum / (asks.length : ℚ)
  let large_bid_threshold :=
    max (avg_bid_volume * SPOOFING_VOLUME_MULTIPLIER) large_order_threshold_btc
  let large_ask_threshold :=
    max (avg_ask_volume * SPOOFING_VOLUME_MULTIPLIER) large_order_threshold_btc
  let score := spoofing_score (suspicious_bids_count bids large_bid_threshold mid_price)
                              (suspicious_asks_count asks large_ask_threshold mid_price)
  (score, risk_level score)

/-! ## Claim C10 -/

/-- The scoring branch analysis shared by the main C10 statement: for any
suspicious-bid/ask counts the score is one of 0, 25, 50, 75 and the HIGH risk
label appears exactly at score 75. -/
theorem spoofing_score_mem (nb na : ℕ) :
    (spoofing_score nb na = 0 ∨ spoofing_score nb na = 25 ∨
     spoofing_score nb na = 50 ∨ spoofing_score nb na = 75) ∧
    (risk_level (spoofing_score nb na) = "HIGH" ↔ spoofing_score nb na = 75) := by
  by_cases h1 : nb > SPOOFING_COUNT_THRESHOLD <;>
    by_cases h2 : na > SPOOFING_COUNT_THRESHOLD <;>
      by_cases h3 : nb > na * 2 <;>
        by_cases h4 : na > nb * 2 <;>
          simp [spoofing_score, risk_level, h1, h2, h3, h4]

/-- Claim C10: for every order book and large-order parameter, the spoofing
score lies in {0, 25, 50, 75} (the two one-sided dominance bonuses are
mutually exclusive, so at most three of the four +25 bonuses apply), and the
returned risk level is HIGH exactly when the score is 75. -/
theorem C10_spoofing_score (bids asks : List (ℚ × ℚ)) (thr : ℚ) :
    ((detect_spoofing_patterns bids asks thr).1 = 0 ∨
     (detect_spoofing_patterns bids asks thr).1 = 25 ∨
     (detect_spoofing_patterns bids asks thr).1 = 50 ∨
     (detect_spoofing_patterns bids asks thr).1 = 75) ∧
    ((detect_spoofing_patterns bids asks thr).2 = "HIGH" ↔
     (detect_spoofing_patterns bids asks thr).1 = 75) :=
  spoofing_score_mem _ _

/-! ### calculate_rsi (crypto_technical_analysis.py)

`delta = close.diff()`, `gain`/`loss` are `period`-bar rolling means of the
positive/negative parts, `rs = gain / loss`, `rsi = 100 - 100/(1+rs)`; only
the last row is reported.  Float semantics of the last window: positive/0
gives inf hence RSI exactly 100, 0/0 gives NaN (modelled by `none`). -/

def deltasOf (closes : List ℚ) : List ℚ :=
  List.zipWith (fun prev cur => cur - prev) closes (closes.drop 1)

def lastWindow (period : ℕ) (xs : List ℚ) : List ℚ := xs.drop (xs.length - period)

def avg_gain (closes : List ℚ) (period : ℕ) : ℚ :=
  ((lastWindow period (deltasOf closes)).map (fun d => max d 0)).sum / (period : ℚ)

def avg_loss (closes : List ℚ) (period : ℕ) : ℚ :=
  ((lastWindow period (deltasOf closes)).map (fun d => max (-d) 0)).sum / (period : ℚ)

/-- The last-row RSI value; `none` models the NaN produced by a 0/0 ratio. -/
def rsi_value (closes : List ℚ) (period : ℕ) : Option ℚ :=
  let g := avg_gain closes period
  let l := avg_loss closes period
  if l = 0 then (if g = 0 then none else some 100)
  else some (100 - 100 / (1 + g / l))

/-! ### Result payloads (JSON dictionaries as association lists) -/

inductive JVal where
  | str (s : String)
  | bool (b : Bool)
  | num (q : ℚ)
  | null
deriving DecidableEq

/-- The message of the insufficient-data branch of `calculate_rsi`. -/
def insufficient_data_message (symbol : String) (period : ℕ) : String :=
  "Insufficient data for " ++ symbol ++ ". Need at least " ++
    toString (period + 1) ++ " data points."

/-- The signal classification of `calculate_rsi`; a NaN value fails every
comparison and falls through to BEARISH. -/
def rsi_signal (current : Option ℚ) : String :=
  match current with
  | some r =>
    if r > 70 then "OVERBOUGHT"
    else if r < 30 then "OVERSOLD"
    else if r > 50 then "BULLISH"
    else "BEARISH"
  | none => "BEARISH"

/-- The response dictionary of `calculate_rsi`: `df = none` models a failed
fetch, and a series shorter than `period + 1` takes the same error branch.
The error branch returns only an `error` key (no `success` key). -/
def calculate_rsi (symbol : String) (period : ℕ) (df : Option (List ℚ)) :
    List (String × JVal) :=
  match df with
  | none => [("error", JVal.str (insufficient_data_message symbol period))]
  | some closes =>
    if closes.length < period + 1 then
      [("error", JVal.str (insufficient_data_message symbol period))]
    else
      [("symbol", JVal.str symbol),
       ("current_rsi",
         match rsi_value closes period with
         | some r => JVal.num (pyRound2 r)
         | none => JVal.null),
       ("rsi_signal", JVal.str (rsi_signal (rsi_value closes period))),
       ("period", JVal.num (period : ℚ))]

/-- The `except` branch of `calculate_obv` (crypto_advanced_indicators.py),
which all failures of that tool (short fetch included) reach. -/
def calculate_obv_failure (symbol error error_type : String) : List (String × JVal) :=
  [("success", JVal.bool false), ("error", JVal.str error),
   ("error_type", JVal.str error_type), ("symbol", JVal.str symbol)]

/-! ## Claim C1 -/

/-- Claim C1 (counterexample): `calculate_rsi` on a series shorter than
period + 1 (here the empty series at period 14) returns a payload with no
`success` key at all — not a payload containing success:false — though it
does carry the informative error message. -/
theorem C1_counterexample :
    List.lookup "success" (calculate_rsi "BTC" 14 (some [])) = none ∧
    List.lookup "error" (calculate_rsi "BTC" 14 (some [])) =
      some (JVal.str (insufficient_data_message "BTC" 14)) := by
  exact ⟨rfl, rfl⟩

/-- Claim C1 (amended): on a fetch failure or a series shorter than
period + 1, `calculate_rsi` returns a structured payload with the
informative insufficient-data error message but no `success` key, rather
than an unhandled exception or silent NaN; the calculators of the
advanced-indicators server (here `calculate_obv`) return failure payloads
that do contain success:false together with the error message. -/
theorem C1_amended (symbol : String) (period : ℕ) (df : Option (List ℚ))
    (hshort : df = none ∨ ∃ closes, df = some closes ∧ closes.length < period + 1) :
    (List.lookup "error" (calculate_rsi symbol period df) =
       some (JVal.str (insufficient_data_message symbol period)) ∧
     List.lookup "success" (calculate_rsi symbol period df) = none) ∧
    (∀ s e t, List.lookup "success" (calculate_obv_failure s e t) =
        some (JVal.bool false) ∧
      List.lookup "error" (calculate_obv_failure s e t) = some (JVal.str e)) := by
  constructor
  · rcases hshort with rfl | ⟨closes, rfl, hlen⟩
    · exact ⟨rfl, rfl⟩
    · simp only [calculate_rsi, if_pos hlen]
      exact ⟨rfl, rfl⟩
  · intro s e t
    exact ⟨rfl, rfl⟩

/-- Claim C1 witness: the amended theorem at a concrete failed fetch. -/
theorem C1_witness :
    (List.lookup "error" (calculate_rsi "BTC" 14 none) =
       some (JVal.str (insufficient_data_message "BTC" 14)) ∧
     List.lookup "success" (calculate_rsi "BTC" 14 none) = none) ∧
    (∀ s e t, List.lookup "success" (calculate_obv_failure s e t) =
        some (JVal.bool false) ∧
      List.lookup "error" (calculate_obv_failure s e t) = some (JVal.str e)) :=
  C1_amended "BTC" 14 none (Or.inl rfl)

/-! ## Claim C3 -/

/-- Claim C3 (counterexample): on a window where every close delta is zero
(closes 100, 100, 100 with period 2) the rolling average loss is exactly 0,
yet the RSI is the NaN of 0/0 (modelled `none`), not 100 — so RSI is neither
100 there nor inside [0, 100]. -/
theorem C3_counterexample :
    avg_loss [100, 100, 100] 2 = 0 ∧ rsi_value [100, 100, 100] 2 = none := by
  constructor <;> norm_num [avg_loss, avg_gain, rsi_value, lastWindow, deltasOf]

/-- Claim C3 (amended): for every series of length ≥ period + 1, whenever the
rolling window is not entirely flat (average gain and average loss not both
zero), RSI lies in [0, 100] and equals 100 exactly when the rolling average
loss is 0; on an entirely flat window both averages are 0 and the RSI is the
NaN of 0/0 (modelled `none`) rather than 100. -/
theorem C3_amended (closes : List ℚ) (period : ℕ) (hp : 0 < period)
    (hlen : period + 1 ≤ closes.length) :
    (¬ (avg_gain closes period = 0 ∧ avg_loss closes period = 0) →
      ∃ r, rsi_value closes period = some r ∧ 0 ≤ r ∧ r ≤ 100 ∧
        (r = 100 ↔ avg_loss closes period = 0)) ∧
    (avg_gain closes period = 0 ∧ avg_loss closes period = 0 →
      rsi_value closes period = none) := by
  have hg : 0 ≤ avg_gain closes period := by
    apply div_nonneg _ (by positivity)
    apply List.sum_nonneg
    intro x hx
    obtain ⟨d, _, rfl⟩ := List.mem_map.mp hx
    exact le_max_right d 0
  have hl : 0 ≤ avg_loss closes period := by
    apply div_nonneg _ (by positivity)
    apply List.sum_nonneg
    intro x hx
    obtain ⟨d, _, rfl⟩ := List.mem_map.mp hx
    exact le_max_right (-d) 0
  constructor
  · intro hne
    by_cases hl0 : avg_loss closes period = 0
    · have hg0 : avg_gain closes period ≠ 0 := fun h => hne ⟨h, hl0⟩
      refine ⟨100, ?_, by norm_num, le_refl 100, iff_of_true rfl hl0⟩
      simp [rsi_value, hl0, hg0]
    · have hlpos : 0 < avg_loss closes period := hl.lt_of_ne (Ne.symm hl0)
      have hrs : 0 ≤ avg_gain closes period / avg_loss closes period :=
        div_nonneg hg hl
      refine ⟨100 - 100 / (1 + avg_gain closes period / avg_loss closes period),
        by simp [rsi_value, hl0], ?_, ?_, ?_⟩
      · have hle : 100 / (1 + avg_gain closes period / avg_loss closes period) ≤ 100 :=
          div_le_self (by norm_num) (by linarith)
        linarith
      · have hpos : 0 < 100 / (1 + avg_gain closes period / avg_loss closes period) :=
          div_pos (by norm_num) (by linarith)
        linarith
      · refine iff_of_false (fun h100 => ?_) hl0
        have hz : 100 / (1 + avg_gain closes period / avg_loss closes period) = 0 := by
          linarith
        rcases div_eq_zero_iff.mp hz with h | h
        · norm_num at h
        · linarith
  · rintro ⟨hg0, hl0⟩
    simp [rsi_value, hl0, hg0]

/-- Claim C3 witness: the amended theorem at closes 1, 2, 3 with period 2,
whose window has positive average gain and zero average loss, so RSI = 100. -/
theorem C3_witness :
    ∃ r, rsi_value [1, 2, 3] 2 = some r ∧ 0 ≤ r ∧ r ≤ 100 ∧
      (r = 100 ↔ avg_loss [1, 2, 3] 2 = 0) :=
  (C3_amended [1, 2, 3] 2 (by norm_num) (by norm_num)).1
    (by norm_num [avg_gain, avg_loss, lastWindow, deltasOf])

/-! ### Candles and calculate_obv (crypto_advanced_indicators.py) -/

structure Candle where
  high : ℚ
  low : ℚ
  close : ℚ
  volume : ℚ
deriving DecidableEq

/-- One step of the OBV loop body. -/
def obvStep (prev prev_close close volume : ℚ) : ℚ :=
  if close > prev_close then prev + volume
  else if close < prev_close then prev - volume
  else prev

/-- The OBV loop over the rows after the first, carrying the running value
and the previous close. -/
def obvAux (acc prev_close : ℚ) : List Candle → List ℚ
  | [] => []
  | x :: rest =>
    obvStep acc prev_close x.close x.volume ::
      obvAux (obvStep acc prev_close x.close x.volume) x.close rest

/-- The `obv` column: starts at 0 and applies `obvStep` row by row. -/
def obv : List Candle → List ℚ
  | [] => [0]
  | x :: rest => 0 :: obvAux 0 x.close rest

theorem obvAux_length (rows : List Candle) :
    ∀ acc prev_close, (obvAux acc prev_close rows).length = rows.length := by
  induction rows with
  | nil => intro acc pc; rfl
  | cons x rest ih => intro acc pc; simp [obvAux, ih]

theorem obvAux_step_getD (rows : List Candle) :
    ∀ (acc pc : ℚ) (i : ℕ), i < rows.length →
      (acc :: obvAux acc pc rows).getD (i + 1) 0 -
          (acc :: obvAux acc pc rows).getD i 0 =
        obvStep 0 ((pc :: rows.map Candle.close).getD i 0)
          ((rows.getD i ⟨0, 0, 0, 0⟩).close) ((rows.getD i ⟨0, 0, 0, 0⟩).volume) := by
  induction rows with
  | nil => intro acc pc i h; simp at h
  | cons x rest ih =>
    intro acc pc i h
    match i with
    | 0 =>
      simp only [obvAux, List.getD_cons_succ, List.getD_cons_zero, List.map_cons]
      unfold obvStep
      split_ifs <;> ring
    | j + 1 =>
      have hj : j < rest.length := by simpa using h
      have := ih (obvStep acc pc x.close x.volume) x.close j hj
      simpa only [obvAux, List.getD_cons_succ, List.map_cons] using this

theorem getD_map_close (rows : List Candle) :
    ∀ i, i < rows.length →
      (rows.map Candle.close).getD i 0 = (rows.getD i ⟨0, 0, 0, 0⟩).close := by
  induction rows with
  | nil => intro i h; simp at h
  | cons x rest ih =>
    intro i h
    match i with
    | 0 => rfl
    | j + 1 =>
      have hj : j < rest.length := by simpa using h
      simpa only [List.map_cons, List.getD_cons_succ] using ih j hj

/-! ## Claim C6 -/

/-- Claim C6: for every non-empty candle series, the OBV sequence has the
same length as the series, starts at 0, and each successive difference is
+volume, −volume or 0 selected solely by the sign of the close delta. -/
theorem C6_obv (rows : List Candle) (hne : rows ≠ []) :
    (obv rows).length = rows.length ∧
    (obv rows).getD 0 0 = 0 ∧
    ∀ i, i + 1 < rows.length →
      (obv rows).getD (i + 1) 0 - (obv rows).getD i 0 =
        (if (rows.getD (i + 1) ⟨0, 0, 0, 0⟩).close >
              (rows.getD i ⟨0, 0, 0, 0⟩).close then
           (rows.getD (i + 1) ⟨0, 0, 0, 0⟩).volume
         else if (rows.getD (i + 1) ⟨0, 0, 0, 0⟩).close <
              (rows.getD i ⟨0, 0, 0, 0⟩).close then
           -(rows.getD (i + 1) ⟨0, 0, 0, 0⟩).volume
         else 0) := by
  match rows, hne with
  | x :: rest, _ =>
    refine ⟨by simp [obv, obvAux_length], rfl, ?_⟩
    intro i hi
    have hi' : i < rest.length := by simpa using hi
    have hstep := obvAux_step_getD rest 0 x.close i hi'
    have hcl : ((x.close :: rest.map Candle.close).getD i 0) =
        ((x :: rest).getD i ⟨0, 0, 0, 0⟩).close := by
      match i with
      | 0 => rfl
      | j + 1 =>
        have hj : j < rest.length := by omega
        simpa only [List.getD_cons_succ] using getD_map_close rest j hj
    have hrow : rest.getD i ⟨0, 0, 0, 0⟩ = (x :: rest).getD (i + 1) ⟨0, 0, 0, 0⟩ := rfl
    rw [show obv (x :: rest) = 0 :: obvAux 0 x.close rest from rfl, hstep, hcl, hrow]
    unfold obvStep
    split_ifs <;> ring

/-- Claim C6 witness: the recurrence at the first step of a concrete
two-candle series with a rising close, giving difference +volume = 5. -/
theorem C6_witness :
    (obv [⟨0, 0, 10, 1⟩, ⟨0, 0, 12, 5⟩]).getD 1 0 -
        (obv [⟨0, 0, 10, 1⟩, ⟨0, 0, 12, 5⟩]).getD 0 0 =
      (if (12 : ℚ) > 10 then (5 : ℚ) else if (12 : ℚ) < 10 then -5 else 0) :=
  (C6_obv [⟨0, 0, 10, 1⟩, ⟨0, 0, 12, 5⟩] (by simp)).2.2 0 (by simp)

/-! ### calculate_mfi (crypto_advanced_indicators.py) -/

def typical_price (x : Candle) : ℚ := (x.high + x.low + x.close) / 3

def money_flow (x : Candle) : ℚ := typical_price x * x.volume

/-- The `positive_flow`/`negative_flow` columns: a leading (0, 0) row, then
for each row the money flow signed by the typical-price direction. -/
def pos_neg_flows (rows : List Candle) : List (ℚ × ℚ) :=
  (0, 0) :: (List.zip (rows.drop 1) rows).map (fun p =>
    if typical_price p.1 > typical_price p.2 then (money_flow p.1, 0)
    else if typical_price p.1 < typical_price p.2 then (0, money_flow p.1)
    else (0, 0))

/-- `df['positive_flow'].iloc[i-period:i].sum()`. -/
def mfi_pos_sum (rows : List Candle) (period i : ℕ) : ℚ :=
  ((((pos_neg_flows rows).drop (i - period)).take period).map Prod.fst).sum

/-- `df['negative_flow'].iloc[i-period:i].sum()`. -/
def mfi_neg_sum (rows : List Candle) (period i : ℕ) : ℚ :=
  ((((pos_neg_flows rows).drop (i - period)).take period).map Prod.snd).sum

/-- Division with Python's fault made explicit: `none` models the
`ZeroDivisionError` that a zero denominator would raise. -/
def safeDiv (a b : ℚ) : Option ℚ := if b = 0 then none else some (a / b)

/-- The MFI value at window end `i`: the zero negative-sum branch short-cuts
to 100, otherwise both divisions of the source are performed. -/
def calculate_mfi_at (rows : List Candle) (period i : ℕ) : Option ℚ :=
  if mfi_neg_sum rows period i = 0 then some 100
  else
    match safeDiv (mfi_pos_sum rows period i) (mfi_neg_sum rows period i) with
    | none => none
    | some money_r =>
      match safeDiv 100 (1 + money_r) with
      | none => none
      | some q => some (100 - q)

/-! ## Claim C5 -/

/-- Claim C5: for every candle series with non-negative fields and every
rolling window, the MFI computation is total (never a division-by-zero
fault): with a zero negative money-flow sum it is exactly 100 without
dividing, and otherwise it is 100 − 100/(1 + sumPositive/sumNegative). -/
theorem C5_mfi_total (rows : List Candle) (period i : ℕ)
    (hnn : ∀ x ∈ rows, 0 ≤ x.high ∧ 0 ≤ x.low ∧ 0 ≤ x.close ∧ 0 ≤ x.volume) :
    ∃ m, calculate_mfi_at rows period i = some m ∧
      (mfi_neg_sum rows period i = 0 → m = 100) ∧
      (mfi_neg_sum rows period i ≠ 0 →
        m = 100 - 100 / (1 + mfi_pos_sum rows period i / mfi_neg_sum rows period i)) := by
  have hflow : ∀ p ∈ pos_neg_flows rows, 0 ≤ p.1 ∧ 0 ≤ p.2 := by
    intro p hp
    rcases List.mem_cons.mp hp with rfl | hp
    · exact ⟨le_refl 0, le_refl 0⟩
    · obtain ⟨q, hq, rfl⟩ := List.mem_map.mp hp
      have hq1 : q.1 ∈ rows := by
        obtain ⟨h1, _⟩ := List.of_mem_zip hq
        exact List.mem_of_mem_drop h1
      have hmf : 0 ≤ money_flow q.1 := by
        obtain ⟨hh, hl, hc, hv⟩ := hnn q.1 hq1
        have htp : 0 ≤ typical_price q.1 := by
          unfold typical_price; positivity
        exact mul_nonneg htp hv
      split_ifs <;> exact ⟨by simp [hmf], by simp [hmf]⟩
  have hwin : ∀ p ∈ ((pos_neg_flows rows).drop (i - period)).take period,
      0 ≤ p.1 ∧ 0 ≤ p.2 := by
    intro p hp
    exact hflow p (List.mem_of_mem_drop (List.mem_of_mem_take hp))
  have hpos : 0 ≤ mfi_pos_sum rows period i := by
    apply List.sum_nonneg
    intro x hx
    obtain ⟨p, hp, rfl⟩ := List.mem_map.mp hx
    exact (hwin p hp).1
  have hneg : 0 ≤ mfi_neg_sum rows period i := by
    apply List.sum_nonneg
    intro x hx
    obtain ⟨p, hp, rfl⟩ := List.mem_map.mp hx
    exact (hwin p hp).2
  by_cases h0 : mfi_neg_sum rows period i = 0
  · exact ⟨100, by simp [calculate_mfi_at, h0], fun _ => rfl,
      fun hne => (hne h0).elim⟩
  · have hr0 : 0 ≤ mfi_pos_sum rows period i / mfi_neg_sum rows period i :=
      div_nonneg hpos hneg
    have h1r : 1 + mfi_pos_sum rows period i / mfi_neg_sum rows period i ≠ 0 := by
      positivity
    refine ⟨100 - 100 / (1 + mfi_pos_sum rows period i / mfi_neg_sum rows period i),
      ?_, fun h => (h0 h).elim, fun _ => rfl⟩
    simp [calculate_mfi_at, h0, safeDiv, h1r]

/-- Claim C5 witness: the theorem at a concrete two-candle rising series with
window period 1 ending at row 1. -/
theorem C5_witness :
    ∃ m, calculate_mfi_at [⟨1, 1, 1, 1⟩, ⟨2, 2, 2, 1⟩] 1 1 = some m ∧
      (mfi_neg_sum [⟨1, 1, 1, 1⟩, ⟨2, 2, 2, 1⟩] 1 1 = 0 → m = 100) ∧
      (mfi_neg_sum [⟨1, 1, 1, 1⟩, ⟨2, 2, 2, 1⟩] 1 1 ≠ 0 →
        m = 100 - 100 / (1 + mfi_pos_sum [⟨1, 1, 1, 1⟩, ⟨2, 2, 2, 1⟩] 1 1 /
          mfi_neg_sum [⟨1, 1, 1, 1⟩, ⟨2, 2, 2, 1⟩] 1 1)) :=
  C5_mfi_total [⟨1, 1, 1, 1⟩, ⟨2, 2, 2, 1⟩] 1 1
    (by intro x hx; fin_cases hx <;> norm_num)

/-! ### calculate_market_impact, buy side (crypto_market_microstructure.py) -/

structure BuyWalk where
  volume : ℚ
  cost : ℚ
  levels : ℕ
deriving DecidableEq

/-- The ask-side loop: accumulate level notional until the target is covered,
filling the last level only for the remaining USD amount. -/
def buyWalkAux (target : ℚ) : List (ℚ × ℚ) → ℚ → ℚ → ℕ → BuyWalk
  | [], cv, cc, lc => ⟨cv, cc, lc⟩
  | (p, v) :: rest, cv, cc, lc =>
    if cc + p * v ≥ target then ⟨cv + (target - cc) / p, target, lc + 1⟩
    else buyWalkAux target rest (cv + v) (cc + p * v) (lc + 1)

structure BuyImpact where
  average_execution_price : Option ℚ
  levels_consumed : ℕ
  insufficient_liquidity : Bool
deriving DecidableEq

/-- The buy-order part of `calculate_market_impact`. -/
def calculate_market_impact_buy (asks : List (ℚ × ℚ)) (order_size_usd : ℚ) :
    BuyImpact :=
  let w := buyWalkAux order_size_usd asks 0 0 0
  if w.cost ≥ order_size_usd then
    ⟨some (order_size_usd / w.volume), w.levels, false⟩
  else ⟨none, w.levels, true⟩

/-- Total notional (price · size summed) of the ask side. -/
def ask_side_value (asks : List (ℚ × ℚ)) : ℚ := (asks.map (fun a => a.1 * a.2)).sum

theorem buyWalkAux_cost_ge_iff (target : ℚ) (asks : List (ℚ × ℚ)) :
    ∀ (cv cc : ℚ) (lc : ℕ), (∀ a ∈ asks, 0 ≤ a.1 * a.2) →
      (target ≤ (buyWalkAux target asks cv cc lc).cost ↔
        target ≤ cc + ask_side_value asks) := by
  induction asks with
  | nil =>
    intro cv cc lc _
    simp [buyWalkAux, ask_side_value]
  | cons a rest ih =>
    obtain ⟨p, v⟩ := a
    intro cv cc lc h
    have hrest : ∀ b ∈ rest, 0 ≤ b.1 * b.2 := fun b hb => h b (List.mem_cons_of_mem _ hb)
    have hsum : 0 ≤ (rest.map (fun a => a.1 * a.2)).sum := by
      apply List.sum_nonneg
      intro x hx
      obtain ⟨b, hb, rfl⟩ := List.mem_map.mp hx
      exact hrest b hb
    simp only [buyWalkAux]
    split_ifs with hfill
    · simp only [ask_side_value, List.map_cons, List.sum_cons]
      constructor
      · intro _
        linarith
      · intro _
        exact le_refl target
    · rw [ih (cv + v) (cc + p * v) (lc + 1) hrest]
      simp only [ask_side_value, List.map_cons, List.sum_cons]
      constructor <;> intro <;> linarith

theorem buyWalkAux_filled_cost (target : ℚ) (asks : List (ℚ × ℚ)) :
    ∀ (cv cc : ℚ) (lc : ℕ), cc < target →
      target ≤ (buyWalkAux target asks cv cc lc).cost →
      (buyWalkAux target asks cv cc lc).cost = target := by
  induction asks with
  | nil =>
    intro cv cc lc hlt hge
    simp only [buyWalkAux] at hge ⊢
    linarith
  | cons a rest ih =>
    obtain ⟨p, v⟩ := a
    intro cv cc lc hlt hge
    simp only [buyWalkAux] at hge ⊢
    split_ifs at hge ⊢ with hfill
    · rfl
    · exact ih (cv + v) (cc + p * v) (lc + 1) (not_le.mp hfill) hge

/-! ## Claim C9 -/

/-- Claim C9: for every ask book with positive prices and non-negative sizes
and every positive USD order size, the buy walk sets insufficient_liquidity
(with a null average execution price) exactly when the whole ask side's
notional cannot cover the order; when it can, the accumulated cost equals
the order size exactly and the reported average execution price is
order size / accumulated base volume; on the book
[(100, 1), (101, 2), (102, 5)] with a 300 USD order it consumes 2 levels
and reports average price 300 / (1 + 200/101). -/
theorem C9_market_impact (asks : List (ℚ × ℚ)) (order_size_usd : ℚ)
    (hpos : 0 < order_size_usd) (hbook : ∀ a ∈ asks, 0 < a.1 ∧ 0 ≤ a.2) :
    ((calculate_market_impact_buy asks order_size_usd).insufficient_liquidity =
        true ↔ ask_side_value asks < order_size_usd) ∧
    ((calculate_market_impact_buy asks order_size_usd).insufficient_liquidity =
        true →
      (calculate_market_impact_buy asks order_size_usd).average_execution_price =
        none) ∧
    (order_size_usd ≤ ask_side_value asks →
      (buyWalkAux order_size_usd asks 0 0 0).cost = order_size_usd ∧
      (calculate_market_impact_buy asks order_size_usd).average_execution_price =
        some (order_size_usd / (buyWalkAux order_size_usd asks 0 0 0).volume)) ∧
    ((calculate_market_impact_buy [(100, 1), (101, 2), (102, 5)]
        300).levels_consumed = 2 ∧
     (calculate_market_impact_buy [(100, 1), (101, 2), (102, 5)]
        300).average_execution_price = some (300 / (1 + 200/101)) ∧
     (calculate_market_impact_buy [(100, 1), (101, 2), (102, 5)]
        300).insufficient_liquidity = false) := by
  have hval : ∀ a ∈ asks, 0 ≤ a.1 * a.2 :=
    fun a ha => mul_nonneg (le_of_lt (hbook a ha).1) (hbook a ha).2
  have hiff := buyWalkAux_cost_ge_iff order_size_usd asks 0 0 0 hval
  rw [zero_add] at hiff
  have hconc :
      (calculate_market_impact_buy [(100, 1), (101, 2), (102, 5)]
          300).levels_consumed = 2 ∧
      (calculate_market_impact_buy [(100, 1), (101, 2), (102, 5)]
          300).average_execution_price = some (300 / (1 + 200/101)) ∧
      (calculate_market_impact_buy [(100, 1), (101, 2), (102, 5)]
          300).insufficient_liquidity = false := by
    norm_num [calculate_market_impact_buy, buyWalkAux]
  have hdef : calculate_market_impact_buy asks order_size_usd =
      (if (buyWalkAux order_size_usd asks 0 0 0).cost ≥ order_size_usd then
        ⟨some (order_size_usd / (buyWalkAux order_size_usd asks 0 0 0).volume),
         (buyWalkAux order_size_usd asks 0 0 0).levels, false⟩
       else ⟨none, (buyWalkAux order_size_usd asks 0 0 0).levels, true⟩) := rfl
  refine ⟨?_, ?_, ?_, hconc⟩
  · rw [hdef]
    split_ifs with hc
    · exact iff_of_false (by simp) (not_lt.mpr (hiff.mp hc))
    · exact iff_of_true rfl (not_le.mp (fun hle => hc (hiff.mpr hle)))
  · rw [hdef]
    split_ifs with hc
    · intro h
      simp at h
    · intro _
      rfl
  · intro hcover
    have hc : order_size_usd ≤ (buyWalkAux order_size_usd asks 0 0 0).cost :=
      hiff.mpr hcover
    have hcost := buyWalkAux_filled_cost order_size_usd asks 0 0 0 hpos hc
    refine ⟨hcost, ?_⟩
    rw [hdef, if_pos hc]

/-- Claim C9 witness: the theorem at the synthetic three-level ask book and
the 300 USD order. -/
theorem C9_witness :
    (calculate_market_impact_buy [(100, 1), (101, 2), (102, 5)]
        300).levels_consumed = 2 ∧
    (calculate_market_impact_buy [(100, 1), (101, 2), (102, 5)]
        300).average_execution_price = some (300 / (1 + 200/101)) ∧
    (calculate_market_impact_buy [(100, 1), (101, 2), (102, 5)]
        300).insufficient_liquidity = false :=
  (C9_market_impact [(100, 1), (101, 2), (102, 5)] 300 (by norm_num)
    (by intro a ha; fin_cases ha <;> norm_num)).2.2.2
